import Mathlib

/-!
Verification of the playback-synchronized animation and spatial-layout engine
of the piano-tutorial-player repository (src/components/piano-visualizer.tsx).

The TypeScript source is embedded shallowly: times and coordinates become
rationals, MIDI pitches become integers (JavaScript `%` on integers is
`Int.tmod`), and the per-frame render passes become pure functions from
(note list, current time) to placement lists.
-/

namespace PianoVis

/-! ## Constants (source lines 58-68) -/

def KEYBOARD_WIDTH : ℚ := 60

def WHITE_KEY_WIDTH : ℚ := KEYBOARD_WIDTH / 52

def BLACK_KEY_WIDTH : ℚ := WHITE_KEY_WIDTH * (65/100)

def NOTE_SPEED : ℚ := 25

def FALL_HEIGHT : ℚ := 40

def HIT_Y : ℚ := 0

def VISIBLE_WINDOW : ℚ := FALL_HEIGHT / NOTE_SPEED

def KEY_Z : ℚ := 0

def NOTE_GAP : ℚ := (1/10) * NOTE_SPEED

/-! ## Note Layout Resolver: getNoteX (source lines 84-116) -/

/-- JavaScript `[1,3,6,8,10].includes(m % 12)`; JS `%` truncates toward zero,
which is `Int.tmod`. -/
def isBlackMidi (midi : ℤ) : Bool :=
  let n := Int.tmod midi 12
  n = 1 || n = 3 || n = 6 || n = 8 || n = 10

/-- The loop `for (let i = 21; i < midi; i++) if white then whiteKeyCount++`. -/
def whiteKeyCountBelow (midi : ℤ) : ℕ :=
  (List.range (midi - 21).toNat).countP (fun j : ℕ => !isBlackMidi (21 + (j : ℤ)))

structure Lane where
  x : ℚ
  width : ℚ
  isBlack : Bool
  deriving DecidableEq, Repr

/-- `getNoteX` from the source: lane (x, width, black/white) for a pitch. -/
def getNoteX (midi : ℤ) : Lane :=
  let whiteKeyCount : ℚ := (whiteKeyCountBelow midi : ℚ)
  let isBlack := isBlackMidi midi
  let offset : ℚ := -KEYBOARD_WIDTH / 2
  if isBlack then
    { x := offset + (whiteKeyCount + 1/2) * WHITE_KEY_WIDTH
      width := BLACK_KEY_WIDTH
      isBlack := true }
  else
    { x := offset + whiteKeyCount * WHITE_KEY_WIDTH + WHITE_KEY_WIDTH / 2
      width := WHITE_KEY_WIDTH * (9/10)
      isBlack := false }

/-! ## Note data and ingestion (source lines 23-34, 559-591) -/

structure NoteData where
  id : String
  midi : ℤ
  time : ℚ
  duration : ℚ
  velocity : ℚ
  isBlack : Bool
  x : ℚ
  width : ℚ
  color : String
  hit : Bool
  deriving DecidableEq, Repr

/-- A raw score event as delivered by the external MIDI parser. -/
structure RawNote where
  midi : ℤ
  time : ℚ
  duration : ℚ
  velocity : ℚ
  deriving DecidableEq, Repr

inductive HandFilter where
  | both
  | left
  | right
  deriving DecidableEq, Repr

/-- The early-return filter in the ingestion loop:
`if (handFilter === "left" && !isLeft) return; if (handFilter === "right" && isLeft) return`. -/
def keepHand (hf : HandFilter) (midi : ℤ) : Bool :=
  let isLeft := midi < 60
  match hf with
  | .both => true
  | .left => isLeft
  | .right => !isLeft

def magenta : String := "#ce93d8"

def cyan : String := "#4dd0e1"

/-- One pushed element of `allNotes` in the ingestion `useMemo`. -/
def mkNoteData (trackIndex i : ℕ) (n : RawNote) : NoteData :=
  let lane := getNoteX n.midi
  let isLeft := n.midi < 60
  { id := toString trackIndex ++ "-" ++ toString i ++ "-" ++ toString n.time
    midi := n.midi
    time := n.time
    duration := n.duration
    velocity := n.velocity
    isBlack := lane.isBlack
    x := lane.x
    width := lane.width
    color := if isLeft then magenta else cyan
    hit := false }

/-- Stable insertion used to model `allNotes.sort((a, b) => a.time - b.time)`. -/
def insertByTime (n : NoteData) : List NoteData → List NoteData
  | [] => [n]
  | m :: ms => if n.time ≤ m.time then n :: m :: ms else m :: insertByTime n ms

def sortByTime (l : List NoteData) : List NoteData :=
  l.foldr insertByTime []

/-- The ingestion `useMemo` of PianoScene and SynthesiaScene (identical code):
flatten tracks, filter by hand, resolve lanes, sort ascending by onset. -/
def buildNotes (tracks : List (List RawNote)) (hf : HandFilter) : List NoteData :=
  sortByTime <| (tracks.enum.flatMap fun ti =>
    (ti.2.enum.filterMap fun ni =>
      if keepHand hf ni.2.midi then some (mkNoteData ti.1 ni.1 ni.2) else none))

/-! ## Visible-Window Filter, fall view (FallingNotes, source lines 260-296) -/

/-- The visibility check of FallingNotes:
`if (timeUntilHit > VISIBLE_WINDOW || timeUntilHit + note.duration < -0.5) return null`. -/
def fallVisible (t : ℚ) (n : NoteData) : Bool :=
  let timeUntilHit := n.time - t
  !(timeUntilHit > VISIBLE_WINDOW || timeUntilHit + n.duration < -(1/2))

structure FallPlacement where
  x : ℚ
  y : ℚ
  z : ℚ
  width : ℚ
  height : ℚ
  depth : ℚ
  deriving DecidableEq, Repr

/-- The rendered box of one note in the fall view, `none` when the visibility
check rejects it. -/
def fallRender (t : ℚ) (n : NoteData) : Option FallPlacement :=
  if !fallVisible t n then none
  else
    let timeUntilHit := n.time - t
    let fullHeight := n.duration * NOTE_SPEED
    let height := max (1/10) (fullHeight - NOTE_GAP)
    let y := HIT_Y + timeUntilHit * NOTE_SPEED + height / 2
    some { x := n.x, y := y, z := -(5/2), width := n.width, height := height, depth := 1/2 }

/-! ## Visible-Window Filter, recede view (SynthesiaFallingNotes, lines 341-409) -/

/-- The visibility check of SynthesiaFallingNotes:
`if (timeUntilHit > VISIBLE_WINDOW || timeUntilHit + note.duration < 0) return null`. -/
def recedeVisible (t : ℚ) (n : NoteData) : Bool :=
  let timeUntilHit := n.time - t
  !(timeUntilHit > VISIBLE_WINDOW || timeUntilHit + n.duration < 0)

structure RecedePlacement where
  x : ℚ
  y : ℚ
  zCenter : ℚ
  width : ℚ
  height : ℚ
  depth : ℚ
  deriving DecidableEq, Repr

/-- `currentDepth` of SynthesiaFallingNotes: the full (gap-adjusted) depth
while approaching, clipped by the passed depth once the note has begun
landing (`timeUntilHit < 0`). -/
def recedeClippedDepth (t : ℚ) (n : NoteData) : ℚ :=
  let timeUntilHit := n.time - t
  let fullDepthOriginal := n.duration * NOTE_SPEED
  let fullDepth := max (1/10) (fullDepthOriginal - NOTE_GAP)
  if timeUntilHit < 0 then max 0 (fullDepth - (-timeUntilHit * NOTE_SPEED))
  else fullDepth

/-- `zCenter` of SynthesiaFallingNotes: re-centered at `KEY_Z - depth/2` once
the note has begun landing. -/
def recedeZCenter (t : ℚ) (n : NoteData) : ℚ :=
  let timeUntilHit := n.time - t
  if timeUntilHit < 0 then KEY_Z - recedeClippedDepth t n / 2
  else (KEY_Z - timeUntilHit * NOTE_SPEED) - recedeClippedDepth t n / 2

/-- The rendered box of one note in the recede view: clipping from the leading
edge once the note has begun landing, `none` when invisible or fully consumed
(`if (currentDepth <= 0) return null`). -/
def recedeRender (t : ℚ) (n : NoteData) : Option RecedePlacement :=
  if !recedeVisible t n then none
  else if recedeClippedDepth t n ≤ 0 then none
  else some { x := n.x, y := 1, zCenter := recedeZCenter t n, width := n.width,
              height := 1/2, depth := recedeClippedDepth t n }

/-! ## Effect pools (source lines 36-54, 412-542, 630-688, 768-823) -/

structure Vec3 where
  x : ℚ
  y : ℚ
  z : ℚ
  deriving DecidableEq, Repr

structure Particle where
  position : Vec3
  velocity : Vec3
  life : ℚ
  maxLife : ℚ
  size : ℚ
  deriving DecidableEq, Repr

structure Sparkle where
  position : Vec3
  velocity : Vec3
  life : ℚ
  maxLife : ℚ
  size : ℚ
  rotation : ℚ
  rotationSpeed : ℚ
  deriving DecidableEq, Repr

/-- The capacity/append shape shared by `spawnParticles` and `spawnSparkles`:
compute `availableSlots = cap - currentCount`, return unchanged when none,
otherwise push `min requested availableSlots` freshly built members.  The
member builder `mk` abstracts the randomized jitter of each pushed object. -/
def spawnInto (cap requested : ℕ) (pool : List α) (mk : ℕ → α) : List α :=
  let availableSlots : ℤ := (cap : ℤ) - pool.length
  if availableSlots ≤ 0 then pool
  else pool ++ (List.range (min requested availableSlots.toNat)).map mk

/-- `spawnParticles`: capacity 500, at most 10 pushed per call. -/
def spawnParticles (pool : List Particle) (mk : ℕ → Particle) : List Particle :=
  spawnInto 500 10 pool mk

/-- `spawnSparkles`: capacity 500; the per-call request is 3-5 in the fall
scene (randomized) and 2 in the recede scene, abstracted as `requested`. -/
def spawnSparkles (requested : ℕ) (pool : List Sparkle) (mk : ℕ → Sparkle) : List Sparkle :=
  spawnInto 500 requested pool mk

/-- Physics applied to a surviving particle after the life decrement:
`p.velocity.y -= 20 * delta; p.position += p.velocity * delta`. -/
def particlePhysics (dt : ℚ) (p : Particle) : Particle :=
  let v : Vec3 := { x := p.velocity.x, y := p.velocity.y - 20 * dt, z := p.velocity.z }
  { p with
    velocity := v
    position := { x := p.position.x + v.x * dt, y := p.position.y + v.y * dt,
                  z := p.position.z + v.z * dt } }

/-- The backward `for` loop of ParticleSystem.useFrame on the reversed pool:
fade, drop dead members, drop members past the instance budget, integrate
survivors while counting them. -/
def advanceParticlesRev (dt : ℚ) : List Particle → ℕ → List Particle
  | [], _ => []
  | p :: rest, activeCount =>
    let faded := { p with life := p.life - dt * (12/10) }
    if faded.life ≤ 0 then advanceParticlesRev dt rest activeCount
    else if 1000 ≤ activeCount then advanceParticlesRev dt rest activeCount
    else particlePhysics dt faded :: advanceParticlesRev dt rest (activeCount + 1)

/-- One `advance(dt)` tick of the particle pool (the loop runs from the last
index down to 0, so it is the reversed-list recursion read back in order). -/
def advanceParticles (dt : ℚ) (pool : List Particle) : List Particle :=
  (advanceParticlesRev dt pool.reverse 0).reverse

/-- Rendered scale of a pool member: `size * (life / maxLife)`. -/
def particleScale (p : Particle) : ℚ :=
  p.size * (p.life / p.maxLife)

/-- Physics applied to a surviving sparkle after fade and spin:
`s.velocity.y -= 5 * delta; s.position += s.velocity * delta`. -/
def sparklePhysics (dt : ℚ) (s : Sparkle) : Sparkle :=
  let v : Vec3 := { x := s.velocity.x, y := s.velocity.y - 5 * dt, z := s.velocity.z }
  { s with
    velocity := v
    position := { x := s.position.x + v.x * dt, y := s.position.y + v.y * dt,
                  z := s.position.z + v.z * dt } }

/-- The backward loop of SparkleSystem.useFrame: fade and spin every member,
drop dead ones, drop those past the budget, integrate survivors. -/
def advanceSparklesRev (dt : ℚ) : List Sparkle → ℕ → List Sparkle
  | [], _ => []
  | s :: rest, activeCount =>
    let faded := { s with life := s.life - dt * (3/2),
                          rotation := s.rotation + s.rotationSpeed * dt }
    if faded.life ≤ 0 then advanceSparklesRev dt rest activeCount
    else if 500 ≤ activeCount then advanceSparklesRev dt rest activeCount
    else sparklePhysics dt faded :: advanceSparklesRev dt rest (activeCount + 1)

/-- One `advance(dt)` tick of the sparkle pool. -/
def advanceSparkles (dt : ℚ) (pool : List Sparkle) : List Sparkle :=
  (advanceSparklesRev dt pool.reverse 0).reverse

def sparkleScale (s : Sparkle) : ℚ :=
  s.size * (s.life / s.maxLife)

/-- The per-member particle step as the spec states it: decrement life by
`dt × 1.2`, remove exactly when the decremented life ≤ 0, otherwise apply the
constant downward acceleration to velocity and integrate position by the
updated velocity × dt. -/
def particleStepSpec (dt : ℚ) (p : Particle) : Option Particle :=
  if p.life - dt * (12/10) ≤ 0 then none
  else some
    { position := ⟨p.position.x + p.velocity.x * dt,
                   p.position.y + (p.velocity.y - 20 * dt) * dt,
                   p.position.z + p.velocity.z * dt⟩
      velocity := ⟨p.velocity.x, p.velocity.y - 20 * dt, p.velocity.z⟩
      life := p.life - dt * (12/10)
      maxLife := p.maxLife
      size := p.size }

/-- The per-member sparkle step as the spec states it: additionally
integrates `rotation += angularVelocity × dt`, with fade rate 1.5. -/
def sparkleStepSpec (dt : ℚ) (s : Sparkle) : Option Sparkle :=
  if s.life - dt * (3/2) ≤ 0 then none
  else some
    { position := ⟨s.position.x + s.velocity.x * dt,
                   s.position.y + (s.velocity.y - 5 * dt) * dt,
                   s.position.z + s.velocity.z * dt⟩
      velocity := ⟨s.velocity.x, s.velocity.y - 5 * dt, s.velocity.z⟩
      life := s.life - dt * (3/2)
      maxLife := s.maxLife
      size := s.size
      rotation := s.rotation + s.rotationSpeed * dt
      rotationSpeed := s.rotationSpeed }

/-! ## Activation Tracker (source lines 618-628 and 758-766, identical code) -/

/-- One note's activity test: `animTime >= n.time && animTime < n.time + n.duration`. -/
def isActiveAt (t : ℚ) (n : NoteData) : Bool :=
  t ≥ n.time && t < n.time + n.duration

/-- The `activeNotes` set of PianoScene / SynthesiaScene, as the list of
pitches of active notes (set membership is list membership). -/
def activeNotes (t : ℚ) (notes : List NoteData) : List ℤ :=
  (notes.filter (isActiveAt t)).map (fun n => n.midi)

/-! ## Per-frame output of the fall scene

FallingNotes keeps one piece of hidden frame-to-frame state, the
`lastSpawnedNotes` ref used only to fire sparkle spawns once per note.  The
frame is modelled as a function from (hidden state, notes, time) to the
placement list together with the updated hidden state, following the
useFrame body (lines 232-256) and the render body (lines 260-296). -/

/-- The useFrame body: add ids of newly visible sparkling notes, then prune
ids whose note is no longer visible. -/
def fallFrameSpawnState (notes : List NoteData) (t : ℚ) (lastSpawned : List String) :
    List String :=
  let afterAdd := notes.foldl (fun acc n =>
    if !fallVisible t n then acc
    else
      let timeUntilHit := n.time - t
      if !acc.contains n.id && timeUntilHit > 0 && timeUntilHit < VISIBLE_WINDOW then
        acc ++ [n.id]
      else acc) lastSpawned
  afterAdd.filter (fun i => notes.any (fun n => n.id == i && fallVisible t n))

/-- One rendered frame of FallingNotes: the visible placements and the
updated hidden spawn-tracking state. -/
def fallFrame (lastSpawned : List String) (notes : List NoteData) (t : ℚ) :
    List FallPlacement × List String :=
  (notes.filterMap (fallRender t), fallFrameSpawnState notes t lastSpawned)

/-- A concrete particle used for closed instantiations. -/
def sampleParticle : Particle :=
  { position := ⟨0, 3, -1⟩, velocity := ⟨0, 10, 0⟩, life := 1, maxLife := 1, size := 1/3 }

/-- A concrete sparkle used for closed instantiations. -/
def sampleSparkle : Sparkle :=
  { position := ⟨0, 10, -2⟩, velocity := ⟨0, -20, 0⟩, life := 1, maxLife := 1,
    size := 1/5, rotation := 0, rotationSpeed := 2 }

/-- A note with the given onset and duration, placed on middle C, used for
the concrete boundary checks of the spec. -/
def mkSimpleNote (time duration : ℚ) : NoteData :=
  { id := "n", midi := 60, time := time, duration := duration, velocity := 1,
    isBlack := false, x := 0, width := 1, color := "", hit := false }

/-! ## Theorems -/

theorem fallVisible_iff (t : ℚ) (n : NoteData) :
    fallVisible t n = true ↔
      n.time - t ≤ VISIBLE_WINDOW ∧ -(1/2) ≤ n.time - t + n.duration := by
  simp [fallVisible, not_or, not_lt]

theorem recedeVisible_iff (t : ℚ) (n : NoteData) :
    recedeVisible t n = true ↔
      n.time - t ≤ VISIBLE_WINDOW ∧ 0 ≤ n.time - t + n.duration := by
  simp [recedeVisible, not_or, not_lt]

theorem fallRender_isSome (t : ℚ) (n : NoteData) :
    (fallRender t n).isSome = fallVisible t n := by
  unfold fallRender
  cases hv : fallVisible t n <;> simp [hv]

/-- C1: the fall view renders a note at clock `t` iff `(onset - t) ≤ W` and
`(onset - t) + duration ≥ -g`, with `W = VISIBLE_WINDOW = 40/25 = 1.6` seconds
and trailing grace `g = 0.5`; a note with onset 5.0 and duration 1.0 is
visible at t = 3.5, not visible at t = 3.3 and not visible at t = 6.6. -/
theorem C1_fall_visible_window :
    (∀ (t : ℚ) (n : NoteData),
      ((fallRender t n).isSome ↔
        n.time - t ≤ VISIBLE_WINDOW ∧ -(1/2) ≤ n.time - t + n.duration))
    ∧ VISIBLE_WINDOW = 8/5
    ∧ (fallRender (7/2) (mkSimpleNote 5 1)).isSome = true
    ∧ (fallRender (33/10) (mkSimpleNote 5 1)).isSome = false
    ∧ (fallRender (33/5) (mkSimpleNote 5 1)).isSome = false := by
  refine ⟨fun t n => ?_, by norm_num [VISIBLE_WINDOW, FALL_HEIGHT, NOTE_SPEED], ?_, ?_, ?_⟩
  · rw [fallRender_isSome]
    exact fallVisible_iff t n
  · rw [fallRender_isSome, fallVisible_iff]
    norm_num [mkSimpleNote, VISIBLE_WINDOW, FALL_HEIGHT, NOTE_SPEED]
  · rw [fallRender_isSome, Bool.eq_false_iff, Ne, fallVisible_iff]
    norm_num [mkSimpleNote, VISIBLE_WINDOW, FALL_HEIGHT, NOTE_SPEED]
  · rw [fallRender_isSome, Bool.eq_false_iff, Ne, fallVisible_iff]
    norm_num [mkSimpleNote, VISIBLE_WINDOW, FALL_HEIGHT, NOTE_SPEED]

/-- C3: the active-pitch set contains a pitch iff some note with that pitch
satisfies `onset ≤ t < onset + duration`; for onset 2.0 and duration 0.5 the
pitch is in the set on [2.0, 2.5) and out of it at t = 2.5 and t = 1.999. -/
theorem C3_activation_halfopen :
    (∀ (t : ℚ) (notes : List NoteData) (p : ℤ),
      p ∈ activeNotes t notes ↔
        ∃ n, n ∈ notes ∧ n.midi = p ∧ n.time ≤ t ∧ t < n.time + n.duration)
    ∧ activeNotes 2 [mkSimpleNote 2 (1/2)] = [60]
    ∧ activeNotes (49/20) [mkSimpleNote 2 (1/2)] = [60]
    ∧ activeNotes (5/2) [mkSimpleNote 2 (1/2)] = []
    ∧ activeNotes (1999/1000) [mkSimpleNote 2 (1/2)] = [] := by
  refine ⟨fun t notes p => ?_,
    by norm_num [activeNotes, isActiveAt, mkSimpleNote, List.filter],
    by norm_num [activeNotes, isActiveAt, mkSimpleNote, List.filter],
    by norm_num [activeNotes, isActiveAt, mkSimpleNote, List.filter],
    by norm_num [activeNotes, isActiveAt, mkSimpleNote, List.filter]⟩
  simp only [activeNotes, List.mem_map, List.mem_filter, isActiveAt,
    Bool.and_eq_true, decide_eq_true_eq, ge_iff_le]
  constructor
  · rintro ⟨n, ⟨hn, h1, h2⟩, hm⟩
    exact ⟨n, hn, hm, h1, h2⟩
  · rintro ⟨n, hn, hm, h1, h2⟩
    exact ⟨n, ⟨hn, h1, h2⟩, hm⟩

/-- C6 counterexample: at t = 6.2 a note with onset 5 and duration 1 is
visible in the fall view but not in the recede view, so the two visibility
predicates do not produce the same answer. -/
theorem C6_counterexample :
    fallVisible (31/5) (mkSimpleNote 5 1) = true
    ∧ recedeVisible (31/5) (mkSimpleNote 5 1) = false := by
  constructor
  · rw [fallVisible_iff]
    norm_num [mkSimpleNote, VISIBLE_WINDOW, FALL_HEIGHT, NOTE_SPEED]
  · rw [Bool.eq_false_iff, Ne, recedeVisible_iff]
    norm_num [mkSimpleNote, VISIBLE_WINDOW, FALL_HEIGHT, NOTE_SPEED]

/-- C6 amended: both views share the 1.6-second look-ahead window, but the
trailing grace differs (0.5 s in the fall view, 0 in the recede view): the
fall predicate holds iff the recede predicate holds or the note lies in the
trailing grace band `onset - t ≤ W ∧ -0.5 ≤ onset - t + duration < 0`. -/
theorem C6_shared_window_graces_differ :
    ∀ (t : ℚ) (n : NoteData),
      fallVisible t n = true ↔
        (recedeVisible t n = true ∨
          (n.time - t ≤ VISIBLE_WINDOW ∧ -(1/2) ≤ n.time - t + n.duration
            ∧ n.time - t + n.duration < 0)) := by
  intro t n
  simp only [fallVisible, recedeVisible, Bool.not_eq_true', Bool.or_eq_false_iff,
    decide_eq_false_iff_not, not_lt]
  constructor
  · rintro ⟨h1, h2⟩
    rcases le_or_lt 0 (n.time - t + n.duration) with h3 | h3
    · exact Or.inl ⟨h1, h3⟩
    · exact Or.inr ⟨h1, h2, h3⟩
  · rintro (⟨h1, h3⟩ | ⟨h1, h2, h3⟩)
    · exact ⟨h1, by linarith⟩
    · exact ⟨h1, h2⟩

/-- C2 counterexample: the note with duration 1.1 has gap-adjusted full
extent exactly 25 units, yet at t = 0.55 (half its duration past onset) the
recede view renders it with remaining extent 45/4 = 11.25 units, more than
one full unit short of the claimed ≈ 12.5. -/
theorem recedeRender_sample :
    recedeRender (11/20) (mkSimpleNote 0 (11/10)) =
      some { x := 0, y := 1, zCenter := -(45/8), width := 1, height := 1/2, depth := 45/4 } := by
  have hv : recedeVisible (11/20) (mkSimpleNote 0 (11/10)) = true := by
    rw [recedeVisible_iff]
    norm_num [mkSimpleNote, VISIBLE_WINDOW, FALL_HEIGHT, NOTE_SPEED]
  have hd : recedeClippedDepth (11/20) (mkSimpleNote 0 (11/10)) = 45/4 := by
    unfold recedeClippedDepth
    norm_num [mkSimpleNote, NOTE_SPEED, NOTE_GAP]
  have hz : recedeZCenter (11/20) (mkSimpleNote 0 (11/10)) = -(45/8) := by
    unfold recedeZCenter
    rw [hd]
    norm_num [mkSimpleNote, KEY_Z]
  unfold recedeRender
  rw [hv, hd, hz]
  norm_num [mkSimpleNote]

theorem C2_counterexample :
    max (1/10 : ℚ) ((11/10) * NOTE_SPEED - NOTE_GAP) = 25
    ∧ (recedeRender (11/20) (mkSimpleNote 0 (11/10))).map (fun pl => pl.depth)
        = some (45/4)
    ∧ (45/4 : ℚ) + 1 < 25/2 := by
  refine ⟨by norm_num [NOTE_SPEED, NOTE_GAP], ?_, by norm_num⟩
  rw [recedeRender_sample]
  rfl

/-- C2 amended: in the recede view, once `onset - t < 0` the rendered depth
equals `max 0 (fullExtent - elapsedSincePassed * speed)` (with `fullExtent`
the gap-adjusted extent `max 0.1 (duration * speed - gap)`), the clipped
depth is never negative, the leading edge `zCenter + depth/2` stays pinned at
the keyboard plane `KEY_Z = 0` after onset, a note whose clipped depth
reaches 0 is not rendered, and the note of gap-adjusted full extent 25 units
(duration 1.1 s) renders with remaining extent 11.25 units — not ≈ 12.5 —
once half its duration has elapsed past onset, because half the duration
removes 13.75 units from the gap-reduced extent. -/
theorem C2_recede_clipping :
    (∀ (t : ℚ) (n : NoteData), n.time - t < 0 →
        recedeClippedDepth t n
          = max 0 (max (1/10) (n.duration * NOTE_SPEED - NOTE_GAP)
              - (t - n.time) * NOTE_SPEED)
        ∧ recedeZCenter t n + recedeClippedDepth t n / 2 = KEY_Z)
    ∧ (∀ (t : ℚ) (n : NoteData), 0 ≤ recedeClippedDepth t n)
    ∧ (∀ (t : ℚ) (n : NoteData), recedeClippedDepth t n ≤ 0 → recedeRender t n = none)
    ∧ (recedeRender (11/20) (mkSimpleNote 0 (11/10))).map (fun pl => pl.depth)
        = some (45/4) := by
  refine ⟨fun t n h => ⟨?_, ?_⟩, fun t n => ?_, fun t n h => ?_,
    by rw [recedeRender_sample]; rfl⟩
  · unfold recedeClippedDepth
    rw [if_pos h]
    ring_nf
  · unfold recedeZCenter
    rw [if_pos h]
    unfold KEY_Z
    ring
  · unfold recedeClippedDepth
    by_cases h : n.time - t < 0
    · rw [if_pos h]
      exact le_max_left 0 _
    · rw [if_neg h]
      exact le_trans (by norm_num) (le_max_left (1/10) _)
  · unfold recedeRender
    by_cases hv : recedeVisible t n <;> simp [hv, h]

/-- C2 amended, witness: the duration-1.1 note at t = 0.55 instantiates the
clipping formula and the pinned leading edge; a nearly consumed short note is
dropped from rendering. -/
theorem C2_recede_clipping_witness :
    recedeClippedDepth (11/20) (mkSimpleNote 0 (11/10))
        = max 0 (max (1/10) ((11/10) * NOTE_SPEED - NOTE_GAP)
            - ((11/20 : ℚ) - 0) * NOTE_SPEED)
    ∧ recedeZCenter (11/20) (mkSimpleNote 0 (11/10))
        + recedeClippedDepth (11/20) (mkSimpleNote 0 (11/10)) / 2 = KEY_Z
    ∧ recedeRender 3 (mkSimpleNote 0 (1/100)) = none := by
  have h1 : (mkSimpleNote 0 (11/10)).time - 11/20 < 0 := by norm_num [mkSimpleNote]
  have h2 : recedeClippedDepth 3 (mkSimpleNote 0 (1/100)) ≤ 0 := by
    unfold recedeClippedDepth
    norm_num [mkSimpleNote, NOTE_SPEED, NOTE_GAP]
  refine ⟨?_, ?_, ?_⟩
  · exact (C2_recede_clipping.1 (11/20) (mkSimpleNote 0 (11/10)) h1).1
  · exact (C2_recede_clipping.1 (11/20) (mkSimpleNote 0 (11/10)) h1).2
  · exact C2_recede_clipping.2.2.1 3 (mkSimpleNote 0 (1/100)) h2

theorem spawnInto_length {α : Type} (cap r : ℕ) (pool : List α) (mk : ℕ → α) :
    (spawnInto cap r pool mk).length =
      if cap ≤ pool.length then pool.length else min (pool.length + r) cap := by
  unfold spawnInto
  by_cases h : (cap : ℤ) - pool.length ≤ 0
  · rw [if_pos h, if_pos (by omega)]
  · rw [if_neg h, if_neg (by omega)]
    simp only [List.length_append, List.length_map, List.length_range]
    omega

theorem spawnInto_append {α : Type} (cap r : ℕ) (pool : List α) (mk : ℕ → α) :
    ∃ tail, spawnInto cap r pool mk = pool ++ tail := by
  unfold spawnInto
  by_cases h : (cap : ℤ) - pool.length ≤ 0
  · exact ⟨[], by rw [if_pos h, List.append_nil]⟩
  · exact ⟨_, by rw [if_neg h]⟩

/-- C4: spawning never pushes a pool past its fixed capacity of 500: each
call appends at most `capacity - currentCount` members (the new count is
`min (count + requested) 500`), a call arriving at (or beyond) capacity
returns the pool unchanged, and any sequence of spawn calls starting within
capacity stays within capacity. -/
theorem C4_pool_capacity :
    (∀ (pool : List Particle) (r : ℕ) (mk : ℕ → Particle),
        (spawnInto 500 r pool mk).length =
          if 500 ≤ pool.length then pool.length else min (pool.length + r) 500)
    ∧ (∀ (pool : List Particle) (r : ℕ) (mk : ℕ → Particle),
        ∃ tail, spawnInto 500 r pool mk = pool ++ tail
          ∧ tail.length ≤ 500 - pool.length)
    ∧ (∀ (pool : List Particle) (r : ℕ) (mk : ℕ → Particle),
        500 ≤ pool.length → spawnInto 500 r pool mk = pool)
    ∧ (∀ (calls : List (ℕ × (ℕ → Particle))) (pool : List Particle),
        pool.length ≤ 500 →
        (calls.foldl (fun acc c => spawnInto 500 c.1 acc c.2) pool).length ≤ 500)
    ∧ (∀ (calls : List (ℕ × (ℕ → Sparkle))),
        (calls.foldl (fun acc c => spawnSparkles c.1 acc c.2) []).length ≤ 500) := by
  have hseq : ∀ {α : Type} (calls : List (ℕ × (ℕ → α))) (pool : List α),
      pool.length ≤ 500 →
      (calls.foldl (fun acc c => spawnInto 500 c.1 acc c.2) pool).length ≤ 500 := by
    intro α calls
    induction calls with
    | nil => intro pool h; simpa using h
    | cons c rest ih =>
      intro pool h
      refine ih _ ?_
      rw [spawnInto_length]
      by_cases hc : 500 ≤ pool.length
      · rw [if_pos hc]; exact h
      · rw [if_neg hc]; omega
  refine ⟨fun pool r mk => spawnInto_length 500 r pool mk,
    fun pool r mk => ?_,
    fun pool r mk h => ?_,
    fun calls pool h => hseq calls pool h,
    fun calls => hseq calls [] (by simp)⟩
  · obtain ⟨tail, ht⟩ := spawnInto_append 500 r pool mk
    refine ⟨tail, ht, ?_⟩
    have := spawnInto_length 500 r pool mk
    rw [ht] at this
    simp only [List.length_append] at this
    by_cases hc : 500 ≤ pool.length
    · rw [if_pos hc] at this; omega
    · rw [if_neg hc] at this; omega
  · unfold spawnInto
    rw [if_pos (by omega)]

/-- C4 witness: a pool already holding 500 particles drops a spawn request
unchanged, and a sequence of two spawn calls from an empty pool stays at or
below 500 live members. -/
theorem advanceParticlesRev_filterMap (dt : ℚ) :
    ∀ (l : List Particle) (a : ℕ), l.length + a ≤ 1000 →
      advanceParticlesRev dt l a = l.filterMap (particleStepSpec dt) := by
  intro l
  induction l with
  | nil => intro a _; rfl
  | cons p rest ih =>
    intro a h
    have hlen : rest.length + (a + 1) ≤ 1000 := by
      simp only [List.length_cons] at h; omega
    have ha : ¬ 1000 ≤ a := by
      simp only [List.length_cons] at h; omega
    by_cases hl : p.life - dt * (12/10) ≤ 0
    · have hstep : particleStepSpec dt p = none := by
        rw [particleStepSpec, if_pos hl]
      simp only [advanceParticlesRev, List.filterMap_cons, hstep, if_pos hl]
      exact ih a (by omega)
    · have hstep : particleStepSpec dt p =
          some (particlePhysics dt { p with life := p.life - dt * (12/10) }) := by
        rw [particleStepSpec, if_neg hl]
        rfl
      simp only [advanceParticlesRev, List.filterMap_cons, hstep, if_neg hl, if_neg ha]
      rw [ih (a + 1) hlen]

theorem advanceSparklesRev_filterMap (dt : ℚ) :
    ∀ (l : List Sparkle) (a : ℕ), l.length + a ≤ 500 →
      advanceSparklesRev dt l a = l.filterMap (sparkleStepSpec dt) := by
  intro l
  induction l with
  | nil => intro a _; rfl
  | cons s rest ih =>
    intro a h
    have hlen : rest.length + (a + 1) ≤ 500 := by
      simp only [List.length_cons] at h; omega
    have ha : ¬ 500 ≤ a := by
      simp only [List.length_cons] at h; omega
    by_cases hl : s.life - dt * (3/2) ≤ 0
    · have hstep : sparkleStepSpec dt s = none := by
        rw [sparkleStepSpec, if_pos hl]
      simp only [advanceSparklesRev, List.filterMap_cons, hstep, if_pos hl]
      exact ih a (by omega)
    · have hstep : sparkleStepSpec dt s =
          some (sparklePhysics dt { s with life := s.life - dt * (3/2),
                                           rotation := s.rotation + s.rotationSpeed * dt }) := by
        rw [sparkleStepSpec, if_neg hl]
        rfl
      simp only [advanceSparklesRev, List.filterMap_cons, hstep, if_neg hl, if_neg ha]
      rw [ih (a + 1) hlen]

/-- C9: for a pool within its instance budget, one advance tick keeps exactly
the members whose life, decremented by `dt × fadeRate` (1.2 for particles,
1.5 for sparkles), stays positive; each survivor gets the constant downward
acceleration applied to its velocity, its position integrated by the updated
velocity × dt, and (sparkles) its rotation integrated by angularVelocity ×
dt; the rendered scale is `size × (life / maxLife)`. -/
theorem C9_pool_advance :
    (∀ (dt : ℚ) (pool : List Particle), pool.length ≤ 1000 →
        advanceParticles dt pool = pool.filterMap (particleStepSpec dt))
    ∧ (∀ (dt : ℚ) (pool : List Sparkle), pool.length ≤ 500 →
        advanceSparkles dt pool = pool.filterMap (sparkleStepSpec dt))
    ∧ (∀ p : Particle, particleScale p = p.size * (p.life / p.maxLife))
    ∧ (∀ s : Sparkle, sparkleScale s = s.size * (s.life / s.maxLife)) := by
  refine ⟨fun dt pool h => ?_, fun dt pool h => ?_, fun p => rfl, fun s => rfl⟩
  · unfold advanceParticles
    rw [advanceParticlesRev_filterMap dt pool.reverse 0 (by simpa using h),
      List.filterMap_reverse, List.reverse_reverse]
  · unfold advanceSparkles
    rw [advanceSparklesRev_filterMap dt pool.reverse 0 (by simpa using h),
      List.filterMap_reverse, List.reverse_reverse]

/-- C9 witness: a two-member pool advanced by dt = 0.5 keeps the healthy
member (integrated) and drops the dying one. -/
theorem C9_pool_advance_witness :
    advanceParticles (1/2) [sampleParticle, { sampleParticle with life := 1/10 }]
        = [sampleParticle, { sampleParticle with life := 1/10 }].filterMap
            (particleStepSpec (1/2))
    ∧ advanceSparkles (1/2) [sampleSparkle]
        = [sampleSparkle].filterMap (sparkleStepSpec (1/2)) := by
  constructor
  · exact C9_pool_advance.1 (1/2) _ (by simp)
  · exact C9_pool_advance.2.1 (1/2) _ (by simp)

theorem C4_pool_capacity_witness :
    spawnInto 500 50 (List.replicate 500 sampleParticle) (fun _ => sampleParticle)
        = List.replicate 500 sampleParticle
    ∧ (([(50, fun _ => sampleParticle), (600, fun _ => sampleParticle)]).foldl
        (fun acc c => spawnInto 500 c.1 acc c.2) []).length ≤ 500 := by
  constructor
  · exact C4_pool_capacity.2.2.1 (List.replicate 500 sampleParticle) 50 _
      (by simp only [List.length_replicate, le_refl])
  · exact C4_pool_capacity.2.2.2.1 _ [] (by simp)

theorem countP_range_mono (f : ℕ → Bool) {a b : ℕ} (h : a ≤ b) :
    (List.range a).countP f ≤ (List.range b).countP f := by
  obtain ⟨c, rfl⟩ := Nat.exists_eq_add_of_le h
  rw [List.range_add, List.countP_append]
  omega

theorem whiteKeyCountBelow_mono {p q : ℤ} (h : p ≤ q) :
    whiteKeyCountBelow p ≤ whiteKeyCountBelow q := by
  unfold whiteKeyCountBelow
  apply countP_range_mono
  omega

theorem whiteKeyCountBelow_succ (p : ℤ) (hp : 21 ≤ p) :
    whiteKeyCountBelow (p + 1) =
      whiteKeyCountBelow p + (if isBlackMidi p then 0 else 1) := by
  unfold whiteKeyCountBelow
  have h1 : (p + 1 - 21).toNat = (p - 21).toNat + 1 := by omega
  rw [h1, List.range_succ, List.countP_append]
  have h2 : (21 + ((p - 21).toNat : ℤ)) = p := by omega
  simp only [List.countP_cons, List.countP_nil, h2]
  cases hb : isBlackMidi p <;> simp [hb]

theorem whiteKeyCountBelow_strictMono {p q : ℤ} (hp : 21 ≤ p) (hpq : p < q)
    (hw : isBlackMidi p = false) :
    whiteKeyCountBelow p < whiteKeyCountBelow q := by
  have h1 : whiteKeyCountBelow (p + 1) = whiteKeyCountBelow p + 1 := by
    rw [whiteKeyCountBelow_succ p hp, hw]
    rfl
  have h2 : whiteKeyCountBelow (p + 1) ≤ whiteKeyCountBelow q :=
    whiteKeyCountBelow_mono (by omega)
  omega

theorem getNoteX_isBlack (p : ℤ) : (getNoteX p).isBlack = isBlackMidi p := by
  unfold getNoteX
  cases hb : isBlackMidi p <;> simp [hb]

theorem getNoteX_white_x {p : ℤ} (hw : isBlackMidi p = false) :
    (getNoteX p).x = -KEYBOARD_WIDTH / 2
      + (whiteKeyCountBelow p : ℚ) * WHITE_KEY_WIDTH + WHITE_KEY_WIDTH / 2 := by
  simp [getNoteX, hw]

theorem getNoteX_black_lane {p : ℤ} (hb : isBlackMidi p = true) :
    (getNoteX p).x = -KEYBOARD_WIDTH / 2
      + ((whiteKeyCountBelow p : ℚ) + 1/2) * WHITE_KEY_WIDTH
    ∧ (getNoteX p).width = BLACK_KEY_WIDTH := by
  simp [getNoteX, hb]

/-- C5: over the 88-key range, a pitch is black exactly when its pitch class
(mod 12) is in {1,3,6,8,10}; a white key sits at
`x = -KEYBOARD_WIDTH/2 + index × whiteKeyWidth + whiteKeyWidth/2` with
`index` the source's count of white keys strictly below the pitch; a black
key sits at the `index + 0.5` slot with width 0.65 × the white-key width;
white-key x strictly increases with pitch among white keys; and the range
holds exactly 52 white and 36 black keys. -/
theorem C5_lane_resolver :
    (∀ p : ℤ, 21 ≤ p → p ≤ 108 →
        ((getNoteX p).isBlack = true ↔
          (p % 12 = 1 ∨ p % 12 = 3 ∨ p % 12 = 6 ∨ p % 12 = 8 ∨ p % 12 = 10)))
    ∧ (∀ p : ℤ, (getNoteX p).isBlack = false →
        (getNoteX p).x = -KEYBOARD_WIDTH / 2
          + (whiteKeyCountBelow p : ℚ) * WHITE_KEY_WIDTH + WHITE_KEY_WIDTH / 2)
    ∧ (∀ p : ℤ, (getNoteX p).isBlack = true →
        (getNoteX p).x = -KEYBOARD_WIDTH / 2
          + ((whiteKeyCountBelow p : ℚ) + 1/2) * WHITE_KEY_WIDTH
        ∧ (getNoteX p).width = WHITE_KEY_WIDTH * (65/100))
    ∧ (∀ p q : ℤ, 21 ≤ p → q ≤ 108 → p < q → (getNoteX p).isBlack = false →
        (getNoteX q).isBlack = false → (getNoteX p).x < (getNoteX q).x)
    ∧ (List.range 88).countP (fun i : ℕ => !isBlackMidi (21 + (i : ℤ))) = 52
    ∧ (List.range 88).countP (fun i : ℕ => isBlackMidi (21 + (i : ℤ))) = 36 := by
  refine ⟨fun p hp _ => ?_, fun p hw => ?_, fun p hb => ?_,
    fun p q hp _ hpq hwp hwq => ?_, by decide, by decide⟩
  · rw [getNoteX_isBlack]
    unfold isBlackMidi
    rw [Int.tmod_eq_emod (by omega) (by omega)]
    simp only [Bool.or_eq_true, decide_eq_true_eq]
    tauto
  · rw [getNoteX_isBlack] at hw
    exact getNoteX_white_x hw
  · rw [getNoteX_isBlack] at hb
    exact getNoteX_black_lane hb
  · rw [getNoteX_isBlack] at hwp hwq
    rw [getNoteX_white_x hwp, getNoteX_white_x hwq]
    have hlt := whiteKeyCountBelow_strictMono hp hpq hwp
    have hcast : (whiteKeyCountBelow p : ℚ) < whiteKeyCountBelow q := by
      exact_mod_cast hlt
    have hW : (0:ℚ) < WHITE_KEY_WIDTH := by norm_num [WHITE_KEY_WIDTH, KEYBOARD_WIDTH]
    have := mul_lt_mul_of_pos_right hcast hW
    linarith

/-- C5 witness: pitch 61 (C#4) is black, white pitch 60 sits at its white
index slot, black pitch 61 at the half slot with narrow width, and white
60 is left of white 62. -/
theorem C5_lane_resolver_witness :
    ((getNoteX 61).isBlack = true ↔
      ((61:ℤ) % 12 = 1 ∨ (61:ℤ) % 12 = 3 ∨ (61:ℤ) % 12 = 6
        ∨ (61:ℤ) % 12 = 8 ∨ (61:ℤ) % 12 = 10))
    ∧ (getNoteX 60).x = -KEYBOARD_WIDTH / 2
        + (whiteKeyCountBelow 60 : ℚ) * WHITE_KEY_WIDTH + WHITE_KEY_WIDTH / 2
    ∧ ((getNoteX 61).x = -KEYBOARD_WIDTH / 2
        + ((whiteKeyCountBelow 61 : ℚ) + 1/2) * WHITE_KEY_WIDTH
      ∧ (getNoteX 61).width = WHITE_KEY_WIDTH * (65/100))
    ∧ (getNoteX 60).x < (getNoteX 62).x := by
  refine ⟨C5_lane_resolver.1 61 (by decide) (by decide), ?_, ?_, ?_⟩
  · exact C5_lane_resolver.2.1 60 (by rw [getNoteX_isBlack]; decide)
  · exact C5_lane_resolver.2.2.1 61 (by rw [getNoteX_isBlack]; decide)
  · exact C5_lane_resolver.2.2.2.1 60 62 (by decide) (by decide) (by decide)
      (by rw [getNoteX_isBlack]; decide) (by rw [getNoteX_isBlack]; decide)

theorem mem_insertByTime {x n : NoteData} :
    ∀ {l : List NoteData}, x ∈ insertByTime n l ↔ x = n ∨ x ∈ l := by
  intro l
  induction l with
  | nil => simp [insertByTime]
  | cons m ms ih =>
    unfold insertByTime
    by_cases h : n.time ≤ m.time
    · rw [if_pos h]
      simp
    · rw [if_neg h]
      simp only [List.mem_cons, ih]
      tauto

theorem mem_sortByTime {x : NoteData} :
    ∀ {l : List NoteData}, x ∈ sortByTime l ↔ x ∈ l := by
  intro l
  induction l with
  | nil => simp [sortByTime]
  | cons m ms ih =>
    show x ∈ insertByTime m (sortByTime ms) ↔ _
    rw [mem_insertByTime]
    simp [ih]

/-- C7 counterexample: a source event with duration 0 passes the ingestion
transform unchanged — a zero-duration note enters the derived note list, so
non-positive durations are neither rejected nor clamped at ingestion. -/
theorem C7_counterexample :
    ∃ nd ∈ buildNotes [[{ midi := 60, time := 0, duration := 0, velocity := 1 }]]
        HandFilter.both, ¬ (0 < nd.duration) := by
  refine ⟨mkNoteData 0 0 { midi := 60, time := 0, duration := 0, velocity := 1 },
    List.mem_singleton.mpr rfl, ?_⟩
  show ¬ ((0:ℚ) < (0:ℚ))
  norm_num

/-- C7 amended: the ingestion transform performs no duration validation or
clamping: every derived note's duration (and pitch) is copied verbatim from
some source event that passed the hand filter, whatever its sign; the
fall/recede layout instead clamps rendered extents below via
`max 0.1 (duration × speed − gap)`. -/
theorem C7_no_duration_validation :
    ∀ (tracks : List (List RawNote)) (hf : HandFilter) (nd : NoteData),
      nd ∈ buildNotes tracks hf →
      ∃ track ∈ tracks, ∃ r ∈ track,
        nd.duration = r.duration ∧ nd.midi = r.midi ∧ keepHand hf r.midi = true := by
  intro tracks hf nd hmem
  unfold buildNotes at hmem
  rw [mem_sortByTime, List.mem_flatMap] at hmem
  obtain ⟨ti, hti, hnd⟩ := hmem
  rw [List.mem_filterMap] at hnd
  obtain ⟨ni, hni, heq⟩ := hnd
  by_cases hk : keepHand hf ni.2.midi
  · rw [if_pos hk] at heq
    obtain rfl := Option.some_injective _ heq
    exact ⟨ti.2, List.snd_mem_of_mem_enum hti, ni.2,
      List.snd_mem_of_mem_enum hni, rfl, rfl, hk⟩
  · rw [if_neg hk] at heq
    exact absurd heq (by simp)

/-- C7 amended, witness: a note with duration −1 flows through ingestion and
is traced back to its source event with the duration preserved. -/
theorem C7_no_duration_validation_witness :
    ∃ track ∈ [[({ midi := 60, time := 0, duration := -1, velocity := 1 } : RawNote)]],
      ∃ r ∈ track,
        (mkNoteData 0 0 { midi := 60, time := 0, duration := -1, velocity := 1 }).duration
            = r.duration
        ∧ (mkNoteData 0 0 { midi := 60, time := 0, duration := -1, velocity := 1 }).midi
            = r.midi
        ∧ keepHand HandFilter.both r.midi = true := by
  exact C7_no_duration_validation
    [[{ midi := 60, time := 0, duration := -1, velocity := 1 }]] HandFilter.both
    (mkNoteData 0 0 { midi := 60, time := 0, duration := -1, velocity := 1 })
    (List.mem_singleton.mpr rfl)

/-- C10: the lane resolver is total on every integer pitch with no range
check anywhere in the core: below pitch 21 the white-key count is 0 and the
key is laid out in the leftmost slot region; at and above pitch 21 the count
keeps growing one per white key without an upper bound (e.g. 59 white keys
lie below pitch 121); and the ingestion transform passes any pitch through
to the derived list (hand filter `both` keeps everything). -/
theorem C10_lane_total_out_of_range :
    (∀ p : ℤ, p ≤ 21 → whiteKeyCountBelow p = 0)
    ∧ (∀ p : ℤ, p < 21 →
        (getNoteX p).x = -KEYBOARD_WIDTH / 2 + WHITE_KEY_WIDTH / 2)
    ∧ (∀ p : ℤ, 21 ≤ p →
        whiteKeyCountBelow (p + 1) =
          whiteKeyCountBelow p + (if isBlackMidi p then 0 else 1))
    ∧ whiteKeyCountBelow 109 = 52
    ∧ whiteKeyCountBelow 121 = 59
    ∧ (∀ r : RawNote, buildNotes [[r]] HandFilter.both = [mkNoteData 0 0 r]) := by
  have hzero : ∀ p : ℤ, p ≤ 21 → whiteKeyCountBelow p = 0 := by
    intro p hp
    unfold whiteKeyCountBelow
    rw [show (p - 21).toNat = 0 from by omega]
    rfl
  refine ⟨hzero, fun p hp => ?_, fun p hp => whiteKeyCountBelow_succ p hp,
    by decide, by decide, fun r => rfl⟩
  by_cases hb : isBlackMidi p
  · have h := (getNoteX_black_lane hb).1
    rw [h, hzero p (by omega)]
    push_cast
    ring
  · rw [getNoteX_white_x (by simpa using hb), hzero p (by omega)]
    norm_num

/-- C10 witness: pitch 5 (far below the keyboard) resolves to the leftmost
slot, the white-key count still advances at pitch 108, and a pitch-200 event
enters the derived note list untouched. -/
theorem C10_lane_total_witness :
    whiteKeyCountBelow 5 = 0
    ∧ (getNoteX 5).x = -KEYBOARD_WIDTH / 2 + WHITE_KEY_WIDTH / 2
    ∧ whiteKeyCountBelow 109 =
        whiteKeyCountBelow 108 + (if isBlackMidi 108 then 0 else 1)
    ∧ buildNotes [[({ midi := 200, time := 0, duration := 1, velocity := 1 } : RawNote)]]
        HandFilter.both
        = [mkNoteData 0 0 { midi := 200, time := 0, duration := 1, velocity := 1 }] := by
  refine ⟨C10_lane_total_out_of_range.1 5 (by decide),
    C10_lane_total_out_of_range.2.1 5 (by decide),
    ?_, C10_lane_total_out_of_range.2.2.2.2.2 _⟩
  exact C10_lane_total_out_of_range.2.2.1 108 (by decide)

/-- C8: the per-frame outputs are pure functions of (note list, time): the
rendered placements are unchanged under any value of the hidden
sparkle-spawn tracking state, re-running a frame on its own updated state
reproduces identical placements, the placement list is pointwise determined
by the state-free `fallRender`, and the active-pitch set is computed from
(t, notes) alone. -/
theorem C8_pure_rederivation :
    (∀ (s1 s2 : List String) (notes : List NoteData) (t : ℚ),
        (fallFrame s1 notes t).1 = (fallFrame s2 notes t).1)
    ∧ (∀ (s : List String) (notes : List NoteData) (t : ℚ),
        (fallFrame ((fallFrame s notes t).2) notes t).1 = (fallFrame s notes t).1)
    ∧ (∀ (s : List String) (notes : List NoteData) (t : ℚ),
        (fallFrame s notes t).1 = notes.filterMap (fallRender t))
    ∧ (∀ (notes : List NoteData) (t : ℚ),
        activeNotes t notes = (notes.filter (isActiveAt t)).map (fun n => n.midi)) :=
  ⟨fun _ _ _ _ => rfl, fun _ _ _ => rfl, fun _ _ _ => rfl, fun _ _ => rfl⟩

end PianoVis
